import Mathlib

/-!
Verification of the idempotent publish + durable delivery queue subsystem of the
zero2prod newsletter service, as a shallow embedding of the Rust sources:

* `src/idempotency/key.rs` — idempotency key validation;
* `src/idempotency/persistence.rs` — the idempotency store (claim, load, complete);
* `src/routes/admin/newsletters/post.rs` — the `publish_newsletters` request handler;
* `src/newsletters_issues.rs` — the delivery queue access layer and the
  `DeliveryWorker` loop (`try_execute_task`, `dequeue_tasks`, `delete_tasks`,
  `update_newsletters_issue_status`, `get_available_newsletters_issues`,
  `worker_loop`).

Modelling conventions:

* Database tables are Lean lists of rows; a SQL `UPDATE ... WHERE` is a `List.map`
  guarded by the `WHERE` condition, a `DELETE ... WHERE` is a `List.filter`, and a
  `SELECT ... LIMIT n` is a `filter`/`take`.
* Subscriber e-mail addresses are opaque identifiers (`Nat`): the code treats them
  as opaque strings except for `SubscriberEmail::parse`, which lives outside this
  core and is modelled as an oracle predicate `isValidSubscriberEmail`, and the
  transport send, modelled as an oracle predicate `sendSucceeds`.
* Fallible database statements whose outcome matters to a claim (the `delete_tasks`
  retry loop) take an outcome oracle; a propagated Rust `Err` is `Option.none`.
* A transaction is the candidate next database state threaded through the calls;
  dropping the transaction (Rust `?` before `commit`) discards the candidate state.
* Side effects other than database writes (transport send attempts, the wake signal
  on the worker's notification handle) are recorded in explicit trace fields.
-/

/-- Row of the `subscriptions` table (only the columns this core reads). -/
structure Subscription where
  email : Nat
  confirmed : Bool
  deriving Repr, DecidableEq

/-- `NewsletterIssueStatus` from `newsletters_issues.rs` (serialized as
`AVAILABLE` / `COMPLETED`). -/
inductive NewsletterIssueStatus
  | available
  | completed
  deriving Repr, DecidableEq

/-- Row of the `newsletters_issues` table. -/
structure NewslettersIssueRow where
  id : Nat
  title : String
  textContent : String
  htmlContent : String
  status : NewsletterIssueStatus
  requiredNTasks : Nat
  finishedNTasks : Nat
  deriving Repr, DecidableEq

/-- Row of the `newsletters_issues_delivery_queue` table: `(id, subscriber_email)`
with no further identity, exactly as in the schema. -/
structure DeliveryTask where
  id : Nat
  subscriberEmail : Nat
  deriving Repr, DecidableEq

/-- `ResponseHeaderRecord` from `idempotency/persistence.rs`: a header name plus
its byte value (`Vec<u8>` modelled as `List Nat`). -/
structure ResponseHeaderRecord where
  key : String
  value : List Nat
  deriving Repr, DecidableEq

/-- A fully materialized HTTP response: status code, ordered header list, buffered
body bytes. -/
structure HttpResponseModel where
  status : Nat
  headers : List ResponseHeaderRecord
  body : List Nat
  deriving Repr, DecidableEq

/-- The response columns of an `idempotency` row (`response_status_code` is stored
as an `i16` in the schema; the stored value is always the non-negative image of a
`u16`, so a `Nat` carries it). -/
structure StoredResponse where
  responseStatusCode : Nat
  responseHeaders : List ResponseHeaderRecord
  responseBody : List Nat
  deriving Repr, DecidableEq

/-- Row of the `idempotency` table.  `response = none` is the placeholder state
(the three response columns are NULL). -/
structure IdempotencyRecord where
  userId : Nat
  idempotencyKey : String
  response : Option StoredResponse
  createdAt : Nat
  deriving Repr, DecidableEq

/-- The database state shared by the publish handler and the delivery worker. -/
structure DbState where
  idempotency : List IdempotencyRecord
  subscriptions : List Subscription
  issues : List NewslettersIssueRow
  queue : List DeliveryTask
  deriving Repr, DecidableEq

/-! ## `src/idempotency/key.rs` -/

/-- `TryFrom<String> for IdempotencyKey`: rejects the empty string (`is_empty`,
i.e. byte length zero) and any string whose byte length reaches
`MAX_LENGTH = 64`. -/
def idempotencyKeyTryFrom (value : String) : Option String :=
  if value.utf8ByteSize = 0 then none
  else if 64 ≤ value.utf8ByteSize then none
  else some value

/-! ## `src/idempotency/persistence.rs` -/

/-- The encoding performed by `update_idempotency_response_record`: the `u16`
status code is converted to `i16` (fails above `i16::MAX = 32767`), the headers
are copied in iteration order, the body is fully buffered. -/
def encodeHttpResponse (r : HttpResponseModel) : Option StoredResponse :=
  if r.status ≤ 32767 then some ⟨r.status, r.headers, r.body⟩ else none

/-- The decoding performed by `get_idempotency_response_record_from_database`:
`StatusCode::from_u16` accepts codes in `100..=999`; the headers are appended in
stored order and the body is attached. -/
def decodeStoredResponse (st : StoredResponse) : Option HttpResponseModel :=
  if 100 ≤ st.responseStatusCode ∧ st.responseStatusCode ≤ 999 then
    some ⟨st.responseStatusCode, st.responseHeaders, st.responseBody⟩
  else none

/-- `get_idempotency_response_record_from_database`.  Outer `none` is a Rust
`Err` (NULL response columns or an undecodable status code); `some none` is
"no row". -/
def getIdempotencyResponseRecordFromDatabase (s : DbState) (idempotencyKey : String)
    (userId : Nat) : Option (Option HttpResponseModel) :=
  match s.idempotency.find? fun rec =>
      rec.userId == userId && rec.idempotencyKey == idempotencyKey with
  | none => some none
  | some rec =>
    match rec.response with
    | none => none
    | some st => (decodeStoredResponse st).map some

/-- `ProcessState` from `idempotency/persistence.rs`: either the caller owns the
key and keeps the open transaction, or a completed response was found. -/
inductive ProcessState
  | startProcessing (tx : DbState)
  | completed (response : HttpResponseModel)
  deriving Repr, DecidableEq

/-- `try_insert_idempotency_response_record_into_database`: `INSERT ... ON
CONFLICT DO NOTHING`; zero rows affected means the `(user_id, idempotency_key)`
pair exists, so the stored response is loaded (an absent or NULL response is the
`Err` path); one row affected returns the transaction to the caller with the
placeholder row inserted. -/
def tryInsertIdempotencyResponseRecordIntoDatabase (s : DbState)
    (idempotencyKey : String) (userId : Nat) (now : Nat) : Option ProcessState :=
  if s.idempotency.any
      (fun rec => rec.userId == userId && rec.idempotencyKey == idempotencyKey) then
    match getIdempotencyResponseRecordFromDatabase s idempotencyKey userId with
    | none => none
    | some none => none
    | some (some response) => some (.completed response)
  else
    some (.startProcessing
      { s with idempotency := s.idempotency ++ [⟨userId, idempotencyKey, none, now⟩] })

/-- `update_idempotency_response_record`: splits the response into parts, encodes
status/headers/body, runs the `UPDATE ... WHERE user_id = $4 AND idempotency_key
= $5`, and hands the reassembled response back. -/
def updateIdempotencyResponseRecord (s : DbState) (idempotencyKey : String)
    (userId : Nat) (response : HttpResponseModel) :
    Option (DbState × HttpResponseModel) :=
  (encodeHttpResponse response).map fun stored =>
    ({ s with idempotency := s.idempotency.map fun rec =>
        if rec.userId == userId && rec.idempotencyKey == idempotencyKey then
          { rec with response := some stored }
        else rec },
     response)

/-! ## `src/routes/admin/newsletters/post.rs` -/

/-- The two collaborators the handler and the worker call for one recipient:
`SubscriberEmail::parse` (external syntactic validation) and the transport send
(`EmailClient`), both modelled as outcome oracles. -/
structure EmailClientModel where
  isValidSubscriberEmail : Nat → Bool
  sendSucceeds : Nat → Bool

/-- Result of the `publish_newsletters` handler: a response, or the `e400` /
`e500` error responses. -/
inductive PublishResult
  | response (r : HttpResponseModel)
  | badRequest
  | internalError
  deriving Repr, DecidableEq

/-- HTTP status carried by a `PublishResult` (`e400` → 400, `e500` → 500). -/
def PublishResult.statusCode : PublishResult → Nat
  | .response r => r.status
  | .badRequest => 400
  | .internalError => 500

/-- Observable outcome of one `publish_newsletters` call: the result, the
committed database state, the transport send attempts in order, and whether the
handler signalled the delivery worker's notification handle (`startup.rs` hands
the `Notify` handle to the `/admin` scope as app data, but the handler never
reads it, so this field is `false` on every path). -/
structure PublishTrace where
  result : PublishResult
  finalState : DbState
  sentEmails : List Nat
  notifiedWorker : Bool
  deriving Repr, DecidableEq

/-- Bytes of the redirect target `"/admin/newsletters"`. -/
def locationAdminNewsletters : List Nat := "/admin/newsletters".toList.map Char.toNat

/-- `see_other("/admin/newsletters")`: 303 with a `location` header and an empty
body. -/
def seeOtherAdminNewsletters : HttpResponseModel :=
  ⟨303, [⟨"location", locationAdminNewsletters⟩], []⟩

/-- `get_confirmed_subscribers`: `SELECT email FROM subscriptions WHERE status =
'confirmed'`, then each email is re-parsed; `some` is `Ok(ConfirmedSubscriber)`,
`none` is the `Err` the caller merely logs. -/
def getConfirmedSubscribers (s : DbState) (ec : EmailClientModel) : List (Option Nat) :=
  (s.subscriptions.filter (·.confirmed)).map fun sub =>
    if ec.isValidSubscriberEmail sub.email then some sub.email else none

/-- The handler's send loop: parse failures are skipped with a warning; a
transport failure aborts the loop via `?` (`map_err(e500)`).  Returns the
transport attempts in order and whether the loop ran to completion. -/
def sendNewslettersLoop (ec : EmailClientModel) : List (Option Nat) → List Nat × Bool
  | [] => ([], true)
  | none :: rest => sendNewslettersLoop ec rest
  | some e :: rest =>
    if ec.sendSucceeds e then
      let (sent, ok) := sendNewslettersLoop ec rest
      (e :: sent, ok)
    else ([e], false)

/-- `publish_newsletters` as it stands in `src/routes/admin/newsletters/post.rs`:
validate the key (`e400`), begin a transaction, `try_insert` the idempotency
claim (a completed record short-circuits with the cached response), fetch the
confirmed subscribers, send every newsletter email inline within the request,
store the 303 response in the idempotency record and commit.  Every `?` before
`commit` drops the transaction, leaving the database state unchanged. -/
def publishNewsletters (s : DbState) (ec : EmailClientModel) (userId : Nat)
    (idempotencyKey : String) (now : Nat) : PublishTrace :=
  match idempotencyKeyTryFrom idempotencyKey with
  | none => ⟨.badRequest, s, [], false⟩
  | some key =>
    match tryInsertIdempotencyResponseRecordIntoDatabase s key userId now with
    | none => ⟨.internalError, s, [], false⟩
    | some (.completed response) => ⟨.response response, s, [], false⟩
    | some (.startProcessing tx) =>
      match sendNewslettersLoop ec (getConfirmedSubscribers tx ec) with
      | (sentEmails, false) => ⟨.internalError, s, sentEmails, false⟩
      | (sentEmails, true) =>
        match updateIdempotencyResponseRecord tx key userId seeOtherAdminNewsletters with
        | none => ⟨.internalError, s, sentEmails, false⟩
        | some (tx', response) => ⟨.response response, tx', sentEmails, false⟩

/-! ## `src/newsletters_issues.rs` — delivery queue access layer -/

/-- `NewslettersIssue`: the content triple carried from the issue row to the
send calls. -/
structure NewslettersIssue where
  title : String
  textContent : String
  htmlContent : String
  deriving Repr, DecidableEq

/-- `ExecutionResult` from `newsletters_issues.rs`. -/
inductive ExecutionResult
  | emptyQueue
  | taskCompleted
  deriving Repr, DecidableEq

/-- `get_available_newsletters_issues`: `SELECT id, title, text_content,
html_content FROM newsletters_issues WHERE status = 'AVAILABLE'` with
`fetch_optional` — a plain read, no `FOR UPDATE`, no `SKIP LOCKED`; it neither
consults nor takes any row lock. -/
def getAvailableNewslettersIssues (s : DbState) : Option (Nat × NewslettersIssue) :=
  (s.issues.find? fun r => r.status == .available).map fun r =>
    (r.id, ⟨r.title, r.textContent, r.htmlContent⟩)

/-- Modelled from the spec (§4.3 step 1), for comparison with
`getAvailableNewslettersIssues` only: the issue selection the spec describes,
which skips issues whose row is already locked by another worker.  The code's
selection takes no `lockedIssues` argument at all. -/
def getAvailableNewslettersIssuesLockSkipSpec (s : DbState)
    (lockedIssues : List Nat) : Option Nat :=
  (s.issues.find? fun r =>
    r.status == .available && !(lockedIssues.contains r.id)).map (·.id)

/-- The rows claimed by `dequeue_tasks`: `SELECT subscriber_email FROM
newsletters_issues_delivery_queue WHERE id = $1 FOR UPDATE SKIP LOCKED LIMIT $2`.
`locked` is the set of rows currently locked by other transactions: they are
skipped; the returned rows become locked by this transaction until commit. -/
def dequeueTasksRows (s : DbState) (locked : List DeliveryTask)
    (newslettersIssueId : Nat) (batchSize : Nat) : List DeliveryTask :=
  (s.queue.filter fun t =>
    t.id == newslettersIssueId && !(locked.contains t)).take batchSize

/-- `dequeue_tasks` returns the claimed rows' `subscriber_email`s. -/
def dequeueTasks (s : DbState) (locked : List DeliveryTask)
    (newslettersIssueId : Nat) (batchSize : Nat) : List Nat :=
  (dequeueTasksRows s locked newslettersIssueId batchSize).map (·.subscriberEmail)

/-- `try_send_newsletter_issue_to_subscriber_email`: parse the address; on
failure log and return `Err` without touching the transport; otherwise attempt
the transport send.  First component: whether the transport was invoked; second:
whether the function returned `Ok`. -/
def trySendNewsletterIssueToSubscriberEmail (ec : EmailClientModel) (e : Nat) :
    Bool × Bool :=
  if ec.isValidSubscriberEmail e then (true, ec.sendSucceeds e) else (false, false)

/-- `delete_tasks`: `DELETE FROM newsletters_issues_delivery_queue WHERE id = $1
AND subscriber_email = ANY($2)` (the effect on the queue when the statement
succeeds and the transaction commits). -/
def deleteTasks (queue : List DeliveryTask) (newslettersIssueId : Nat)
    (subscriberEmails : List Nat) : List DeliveryTask :=
  queue.filter fun t =>
    !(t.id == newslettersIssueId && subscriberEmails.contains t.subscriberEmail)

/-- Outcome of one `delete_tasks` attempt.  `fatalErr` stands for
`sqlx::Error::ColumnDecode`, `ColumnNotFound` or `TypeNotFound` (the only errors
`try_execute_task` propagates); `transientErr` is every other error. -/
inductive DeleteOutcome
  | ok
  | fatalErr
  | transientErr
  deriving Repr, DecidableEq

/-- `MAX_RETRIES` from `try_execute_task`. -/
def MAX_RETRIES : Nat := 5

/-- `RETRY_INTERVAL` from `try_execute_task`, in seconds. -/
def RETRY_INTERVAL_SECS : Nat := 1

/-- The `delete_tasks` retry loop of `try_execute_task`.  `attemptOutcome k` is
the result of attempt number `k`; `fuel` is `MAX_RETRIES - n_retries`.  Returns
`none` on a fatal error (the loop `return`s `Err`), otherwise `some deleted`
(`false` when every attempt failed transiently and the loop gave up), paired
with the list of sleep durations performed between attempts. -/
def deleteTasksRetryLoop (attemptOutcome : Nat → DeleteOutcome) :
    Nat → Nat → Option Bool × List Nat
  | k, fuel =>
    match attemptOutcome k with
    | .ok => (some true, [])
    | .fatalErr => (none, [])
    | .transientErr =>
      match fuel with
      | 0 => (some false, [])
      | fuel' + 1 =>
        let rest := deleteTasksRetryLoop attemptOutcome (k + 1) fuel'
        (rest.1, RETRY_INTERVAL_SECS :: rest.2)

/-- The first UPDATE of `update_newsletters_issue_status`, applied to one row:
`SET finished_n_tasks = finished_n_tasks + $1 WHERE id = $2 AND status =
'AVAILABLE'`. -/
def incrementFinishedNTasks (newslettersIssueId : Nat) (doneTasksCount : Nat)
    (r : NewslettersIssueRow) : NewslettersIssueRow :=
  if r.id == newslettersIssueId && r.status == .available then
    { r with finishedNTasks := r.finishedNTasks + doneTasksCount }
  else r

/-- The second UPDATE of `update_newsletters_issue_status`, applied to one row:
`SET status = 'COMPLETED' WHERE id = $2 AND status = 'AVAILABLE' AND
finished_n_tasks = required_n_tasks`. -/
def completeWhenFinishedMatches (newslettersIssueId : Nat)
    (r : NewslettersIssueRow) : NewslettersIssueRow :=
  if r.id == newslettersIssueId && r.status == .available &&
      r.finishedNTasks == r.requiredNTasks then
    { r with status := .completed }
  else r

/-- `update_newsletters_issue_status`: one transaction that first runs the
increment UPDATE, then the completion UPDATE, then commits.  It reads only the
`newsletters_issues` table — in particular it never consults the delivery
queue. -/
def updateNewslettersIssueStatus (s : DbState) (newslettersIssueId : Nat)
    (doneTasksCount : Nat) : DbState :=
  { s with
    issues := List.map (completeWhenFinishedMatches newslettersIssueId)
      (List.map (incrementFinishedNTasks newslettersIssueId doneTasksCount) s.issues) }

/-- Observable outcome of one `try_execute_task` call: the database state after
the worker transaction committed and the counters were updated, the returned
`ExecutionResult`, the batch of claimed subscriber emails, and the emails for
which the transport send was actually invoked. -/
structure ExecutionTrace where
  finalState : DbState
  result : ExecutionResult
  claimedBatch : List Nat
  attemptedSends : List Nat
  deriving Repr, DecidableEq

/-- The `finished_emails` local of `try_execute_task`: the claimed emails whose
`try_send_newsletter_issue_to_subscriber_email` call returned `Ok` (parse and
transport both succeeded), in batch order. -/
def finishedEmailsOf (s : DbState) (ec : EmailClientModel)
    (newslettersIssueId : Nat) : List Nat :=
  (dequeueTasks s [] newslettersIssueId 50).filter fun e =>
    (trySendNewsletterIssueToSubscriberEmail ec e).2

/-- The claimed emails for which the transport send was invoked inside the send
loop of `try_execute_task` (those whose address parsed). -/
def attemptedSendsOf (s : DbState) (ec : EmailClientModel)
    (newslettersIssueId : Nat) : List Nat :=
  (dequeueTasks s [] newslettersIssueId 50).filter fun e =>
    (trySendNewsletterIssueToSubscriberEmail ec e).1

/-- `try_execute_task`: pick an AVAILABLE issue (plain read); claim a batch of at
most 50 of its queue rows (`FOR UPDATE SKIP LOCKED`; a lone worker holds no
other locks, hence `locked = []`) — `remaining_emails`; send to each claimed
recipient, collecting the successes in `finished_emails`; run the `delete_tasks`
retry loop (a fatal error returns `Err`, dropping the transaction); commit — the
deletion takes effect only if some delete attempt succeeded; finally increment
`finished_n_tasks` by `finished_emails.len()` and flip the status in a separate
transaction on the pool.  `none` is the propagated `Err`. -/
def tryExecuteTask (s : DbState) (ec : EmailClientModel)
    (deleteOutcome : Nat → DeleteOutcome) : Option ExecutionTrace :=
  match getAvailableNewslettersIssues s with
  | none => some ⟨s, .emptyQueue, [], []⟩
  | some (newslettersIssueId, _issueContent) =>
    if (dequeueTasks s [] newslettersIssueId 50).isEmpty then
      some ⟨s, .emptyQueue, [], []⟩
    else
      match (deleteTasksRetryLoop deleteOutcome 0 MAX_RETRIES).1 with
      | none => none
      | some deleted =>
        some ⟨updateNewslettersIssueStatus
                { s with queue :=
                    if deleted then deleteTasks s.queue newslettersIssueId (finishedEmailsOf s ec newslettersIssueId) else s.queue }
                newslettersIssueId (finishedEmailsOf s ec newslettersIssueId).length,
              .taskCompleted, dequeueTasks s [] newslettersIssueId 50,
              attemptedSendsOf s ec newslettersIssueId⟩

/-- One oracle bundle per worker-loop iteration. -/
structure WorkerStepOracle where
  emailClient : EmailClientModel
  deleteOutcome : Nat → DeleteOutcome

/-- The database state after one worker-loop iteration; a propagated error
leaves the database unchanged (the transaction is dropped). -/
def workerStep (s : DbState) (o : WorkerStepOracle) : DbState :=
  match tryExecuteTask s o.emailClient o.deleteOutcome with
  | some tr => tr.finalState
  | none => s

/-- The database state after a sequence of worker-loop iterations. -/
def workerRun (s : DbState) : List WorkerStepOracle → DbState
  | [] => s
  | o :: os => workerRun (workerStep s o) os

/-- The database states visited by a sequence of worker-loop iterations,
starting state included. -/
def workerTrace (s : DbState) : List WorkerStepOracle → List DbState
  | [] => [s]
  | o :: os => s :: workerTrace (workerStep s o) os

/-- The action `worker_loop` takes after one `try_execute_task` call (`none` is
`Err`): on `EmptyQueue` it waits on the notification handle — a plain
`notified().await`, the code never builds the timed variant; on any error it
sleeps one second; on `TaskCompleted` it loops immediately. -/
inductive WorkerLoopAction
  | waitNotified
  | waitNotifiedWithTimeout (secs : Nat)
  | sleepSecs (secs : Nat)
  | continueImmediately
  deriving Repr, DecidableEq

/-- The match in `worker_loop` (`newsletters_issues.rs` lines 41–51). -/
def workerLoopBody : Option ExecutionResult → WorkerLoopAction
  | some .emptyQueue => .waitNotified
  | none => .sleepSecs 1
  | some .taskCompleted => .continueImmediately

/-- Whether a worker-loop action involves a timer that would eventually fire on
its own. -/
def WorkerLoopAction.hasTimer : WorkerLoopAction → Bool
  | .waitNotifiedWithTimeout _ => true
  | .sleepSecs _ => true
  | _ => false

/-! ## Schema-level well-formedness -/

/-- Queue rows for one issue. -/
def issueTasksCount (s : DbState) (newslettersIssueId : Nat) : Nat :=
  (s.queue.filter fun t => t.id == newslettersIssueId).length

/-- States reachable from a correctly initialized database: issue ids are
unique (primary key), queue rows are unique (`(id, subscriber_email)` primary
key), every issue satisfies `finished_n_tasks ≤ required_n_tasks`, and an
AVAILABLE issue's finished count plus its remaining queue rows equals its
required count (publish initializes `finished = 0` and `required` = number of
enqueued tasks). -/
abbrev wfState (s : DbState) : Prop :=
  (s.issues.map (·.id)).Nodup ∧
  s.queue.Nodup ∧
  (∀ r ∈ s.issues, r.finishedNTasks ≤ r.requiredNTasks) ∧
  (∀ r ∈ s.issues, r.status = .available →
    r.finishedNTasks + issueTasksCount s r.id = r.requiredNTasks)

/-- The status-transition discipline between two consecutive worker states:
row by row (matched on the unique id), a status change is always
AVAILABLE → COMPLETED and happens exactly when the incremented
`finished_n_tasks` equals `required_n_tasks`; COMPLETED is terminal. -/
def statusStepOk (s₁ s₂ : DbState) : Prop :=
  ∀ r₁ ∈ s₁.issues, ∀ r₂ ∈ s₂.issues, r₁.id = r₂.id →
    (r₁.status = .completed → r₂.status = .completed) ∧
    (r₁.status ≠ r₂.status →
      r₁.status = .available ∧ r₂.status = .completed ∧
      r₂.finishedNTasks = r₂.requiredNTasks)

/-! ## Concrete states and oracles used by witnesses and counterexamples -/

/-- A database with a single confirmed subscriber (email `1`) and nothing else. -/
def oneConfirmedSubscriberState : DbState := ⟨[], [⟨1, true⟩], [], []⟩

/-- A database with two confirmed subscribers (emails `1` and `2`) and nothing
else. -/
def twoConfirmedSubscribersState : DbState := ⟨[], [⟨1, true⟩, ⟨2, true⟩], [], []⟩

/-- A database with one AVAILABLE issue (`id 1`, `required_n_tasks = 1`,
`finished_n_tasks = 0`) and its one queued delivery task (subscriber `5`). -/
def oneAvailableIssueState : DbState :=
  ⟨[], [], [⟨1, "t", "x", "h", .available, 1, 0⟩], [⟨1, 5⟩]⟩

/-- A database with one AVAILABLE issue (`id 1`, `required_n_tasks = 51`) and
its 51 queued delivery tasks — one more than the worker's batch size of 50. -/
def fiftyOneTasksState : DbState :=
  ⟨[], [], [⟨1, "t", "x", "h", .available, 51, 0⟩],
    (List.range 51).map fun e => ⟨1, e⟩⟩

/-- A database with one AVAILABLE issue (`id 1`, `required_n_tasks = 1`) whose
single queued task carries a malformed subscriber email (`7`). -/
def oneMalformedTaskState : DbState :=
  ⟨[], [], [⟨1, "t", "x", "h", .available, 1, 0⟩], [⟨1, 7⟩]⟩

/-- Collaborators for which every address parses and every transport send
succeeds. -/
def allGoodEmailClient : EmailClientModel := ⟨fun _ => true, fun _ => true⟩

/-- Collaborators for which every address parses but only the send to email `1`
succeeds. -/
def failSecondEmailClient : EmailClientModel := ⟨fun _ => true, fun e => e == 1⟩

/-- Collaborators for which no address parses. -/
def noValidEmailClient : EmailClientModel := ⟨fun _ => false, fun _ => true⟩

/-- A worker iteration in which every `delete_tasks` attempt fails with a
retryable error. -/
def allTransientOracle : WorkerStepOracle := ⟨allGoodEmailClient, fun _ => .transientErr⟩

/-- A worker iteration in which every `delete_tasks` attempt succeeds. -/
def allOkOracle : WorkerStepOracle := ⟨allGoodEmailClient, fun _ => .ok⟩

/-! ## Helper lemmas -/

/-- Helper: the key is accepted exactly when its byte length is between 1 and
63. -/
lemma idempotencyKeyTryFrom_isSome_iff (value : String) :
    (idempotencyKeyTryFrom value).isSome ↔
      1 ≤ value.utf8ByteSize ∧ value.utf8ByteSize ≤ 63 := by
  unfold idempotencyKeyTryFrom
  split
  · rename_i h
    simp [h]
  · split
    · rename_i h h64
      simp
      omega
    · rename_i h h64
      simp
      omega

/-- Claim C5: completing a claimed key with a response `r` (any valid HTTP status,
`100..=999`) and then re-reading the same `(user, key)` pair through
`try_insert_idempotency_response_record_into_database` reconstructs exactly `r`:
status, ordered header list and buffered body all round-trip, so every publish
call after the first successful one returns a byte-identical response. -/
theorem idempotency_store_load_roundtrip (s : DbState) (userId : Nat)
    (idempotencyKey : String) (r : HttpResponseModel) (now : Nat)
    (hlo : 100 ≤ r.status) (hhi : r.status ≤ 999)
    (hrec : (s.idempotency.find? fun rec =>
        rec.userId == userId && rec.idempotencyKey == idempotencyKey).isSome) :
    ∃ s', updateIdempotencyResponseRecord s idempotencyKey userId r = some (s', r) ∧
      tryInsertIdempotencyResponseRecordIntoDatabase s' idempotencyKey userId now =
        some (.completed r) := by
  have henc : encodeHttpResponse r = some ⟨r.status, r.headers, r.body⟩ := by
    unfold encodeHttpResponse
    rw [if_pos (by omega)]
  set f : IdempotencyRecord → IdempotencyRecord := fun rec =>
    if rec.userId == userId && rec.idempotencyKey == idempotencyKey then
      { rec with response := some ⟨r.status, r.headers, r.body⟩ }
    else rec with hf
  refine ⟨{ s with idempotency := s.idempotency.map f }, ?_, ?_⟩
  · rw [updateIdempotencyResponseRecord, henc]
    rfl
  · obtain ⟨rec, hfind⟩ := Option.isSome_iff_exists.mp hrec
    have hp : (fun rec : IdempotencyRecord =>
        rec.userId == userId && rec.idempotencyKey == idempotencyKey) rec = true := by
      have := List.find?_some hfind
      simpa using this
    have hpres : ∀ rec : IdempotencyRecord,
        ((fun rec : IdempotencyRecord =>
          rec.userId == userId && rec.idempotencyKey == idempotencyKey) (f rec)) =
        ((fun rec : IdempotencyRecord =>
          rec.userId == userId && rec.idempotencyKey == idempotencyKey) rec) := by
      intro rec
      by_cases h : (rec.userId == userId && rec.idempotencyKey == idempotencyKey) = true
      · have h' : rec.userId = userId ∧ rec.idempotencyKey = idempotencyKey := by
          simpa using h
        simp [hf, h'.1, h'.2]
      · simp only [hf]
        rw [if_neg (by simpa using h)]
    have hfind' : ((s.idempotency.map f).find? fun rec =>
        rec.userId == userId && rec.idempotencyKey == idempotencyKey) =
        some (f rec) := by
      rw [List.find?_map]
      have : ((fun rec : IdempotencyRecord =>
          rec.userId == userId && rec.idempotencyKey == idempotencyKey) ∘ f) =
          (fun rec : IdempotencyRecord =>
          rec.userId == userId && rec.idempotencyKey == idempotencyKey) := by
        funext rec
        exact hpres rec
      rw [this, hfind]
      rfl
    have hfrec : f rec = { rec with response := some ⟨r.status, r.headers, r.body⟩ } := by
      have h' : rec.userId = userId ∧ rec.idempotencyKey = idempotencyKey := by
        simpa using hp
      simp [hf, h'.1, h'.2]
    have hmem : ∃ rec' ∈ s.idempotency.map f,
        (rec'.userId == userId && rec'.idempotencyKey == idempotencyKey) = true := by
      refine ⟨f rec, List.mem_of_find?_eq_some hfind', ?_⟩
      rw [hfrec]
      simpa using hp
    rw [tryInsertIdempotencyResponseRecordIntoDatabase]
    rw [if_pos (by simpa [List.any_eq_true] using hmem)]
    rw [getIdempotencyResponseRecordFromDatabase]
    simp only [hfind', hfrec]
    rw [decodeStoredResponse]
    rw [if_pos (by constructor <;> [exact hlo; exact hhi])]
    rfl

/-- Witness for C5 at a concrete state: a placeholder row for user 7 / key `"k"`
completed with a 303 response carrying one header and a three-byte body. -/
theorem idempotency_store_load_roundtrip_witness :
    ∃ s', updateIdempotencyResponseRecord
        ⟨[⟨7, "k", none, 0⟩], [], [], []⟩ "k" 7 ⟨303, [⟨"location", [47, 97]⟩], [1, 2, 3]⟩ =
        some (s', ⟨303, [⟨"location", [47, 97]⟩], [1, 2, 3]⟩) ∧
      tryInsertIdempotencyResponseRecordIntoDatabase s' "k" 7 5 =
        some (.completed ⟨303, [⟨"location", [47, 97]⟩], [1, 2, 3]⟩) :=
  idempotency_store_load_roundtrip ⟨[⟨7, "k", none, 0⟩], [], [], []⟩ 7 "k"
    ⟨303, [⟨"location", [47, 97]⟩], [1, 2, 3]⟩ 5 (by decide) (by decide) (by decide)

/-! ## Helper lemmas about the worker primitives -/

lemma trySend_fst (ec : EmailClientModel) (e : Nat) :
    (trySendNewsletterIssueToSubscriberEmail ec e).1 = ec.isValidSubscriberEmail e := by
  unfold trySendNewsletterIssueToSubscriberEmail
  split <;> simp_all

lemma valid_of_trySend_snd {ec : EmailClientModel} {e : Nat}
    (h : (trySendNewsletterIssueToSubscriberEmail ec e).2 = true) :
    ec.isValidSubscriberEmail e = true := by
  unfold trySendNewsletterIssueToSubscriberEmail at h
  by_cases hv : ec.isValidSubscriberEmail e = true
  · exact hv
  · rw [if_neg hv] at h
    simp at h

lemma mem_dequeueTasksRows {s : DbState} {locked : List DeliveryTask}
    {newslettersIssueId n : Nat} {t : DeliveryTask}
    (h : t ∈ dequeueTasksRows s locked newslettersIssueId n) :
    t ∈ s.queue ∧ t.id = newslettersIssueId ∧ t ∉ locked := by
  unfold dequeueTasksRows at h
  have h' := List.take_subset _ _ h
  refine ⟨List.mem_of_mem_filter h', ?_, ?_⟩
  · have := List.of_mem_filter h'
    simp at this
    exact this.1
  · have := List.of_mem_filter h'
    simp at this
    exact this.2

lemma dequeueTasksRows_nil_locked (s : DbState) (newslettersIssueId n : Nat) :
    dequeueTasksRows s [] newslettersIssueId n =
      (s.queue.filter fun t => t.id == newslettersIssueId).take n := by
  unfold dequeueTasksRows
  congr 1
  exact List.filter_congr fun t _ => by simp

lemma incrementFinishedNTasks_id (newslettersIssueId d : Nat) (r : NewslettersIssueRow) :
    (incrementFinishedNTasks newslettersIssueId d r).id = r.id := by
  unfold incrementFinishedNTasks
  split <;> rfl

lemma completeWhenFinishedMatches_id (newslettersIssueId : Nat) (r : NewslettersIssueRow) :
    (completeWhenFinishedMatches newslettersIssueId r).id = r.id := by
  unfold completeWhenFinishedMatches
  split <;> rfl

lemma incrementFinishedNTasks_completed {newslettersIssueId d : Nat}
    {r : NewslettersIssueRow} (h : r.status = .completed) :
    incrementFinishedNTasks newslettersIssueId d r = r := by
  unfold incrementFinishedNTasks
  rw [if_neg]
  simp [h]

lemma completeWhenFinishedMatches_completed {newslettersIssueId : Nat}
    {r : NewslettersIssueRow} (h : r.status = .completed) :
    completeWhenFinishedMatches newslettersIssueId r = r := by
  unfold completeWhenFinishedMatches
  rw [if_neg]
  simp [h]

lemma updateNewslettersIssueStatus_issues (s : DbState) (newslettersIssueId d : Nat) :
    (updateNewslettersIssueStatus s newslettersIssueId d).issues =
      s.issues.map (completeWhenFinishedMatches newslettersIssueId ∘
        incrementFinishedNTasks newslettersIssueId d) := by
  unfold updateNewslettersIssueStatus
  simp [List.map_map]

lemma updateNewslettersIssueStatus_queue (s : DbState) (newslettersIssueId d : Nat) :
    (updateNewslettersIssueStatus s newslettersIssueId d).queue = s.queue := rfl

lemma updateNewslettersIssueStatus_ids (s : DbState) (newslettersIssueId d : Nat) :
    (updateNewslettersIssueStatus s newslettersIssueId d).issues.map (·.id) =
      s.issues.map (·.id) := by
  rw [updateNewslettersIssueStatus_issues, List.map_map]
  exact List.map_congr_left fun r _ => by
    simp [Function.comp, completeWhenFinishedMatches_id, incrementFinishedNTasks_id]

lemma deleteTasksRetryLoop_sleeps (o : Nat → DeleteOutcome) :
    ∀ fuel k, (deleteTasksRetryLoop o k fuel).2.length ≤ fuel ∧
      ∀ d ∈ (deleteTasksRetryLoop o k fuel).2, d = RETRY_INTERVAL_SECS := by
  intro fuel
  induction fuel with
  | zero =>
    intro k
    cases h : o k <;> simp [deleteTasksRetryLoop, h]
  | succ fuel ih =>
    intro k
    cases h : o k <;> simp [deleteTasksRetryLoop, h]
    obtain ⟨h1, h2⟩ := ih (k + 1)
    refine ⟨by omega, h2⟩

lemma deleteTasksRetryLoop_none_iff (o : Nat → DeleteOutcome) :
    ∀ fuel k, ((deleteTasksRetryLoop o k fuel).1 = none ↔
      ∃ j, j ≤ fuel ∧ o (k + j) = .fatalErr ∧ ∀ i < j, o (k + i) = .transientErr) := by
  intro fuel
  induction fuel with
  | zero =>
    intro k
    cases h : o k with
    | ok =>
      simp only [deleteTasksRetryLoop, h]
      constructor
      · intro hfalse
        simp at hfalse
      · rintro ⟨j, hj, hf, -⟩
        have hj0 : j = 0 := by omega
        subst hj0
        rw [Nat.add_zero] at hf
        rw [h] at hf
        cases hf
    | fatalErr =>
      simp only [deleteTasksRetryLoop, h]
      constructor
      · intro _
        exact ⟨0, Nat.le_refl 0, by rwa [Nat.add_zero], fun i hi => absurd hi (by omega)⟩
      · intro _
        trivial
    | transientErr =>
      simp only [deleteTasksRetryLoop, h]
      constructor
      · intro hfalse
        simp at hfalse
      · rintro ⟨j, hj, hf, -⟩
        have hj0 : j = 0 := by omega
        subst hj0
        rw [Nat.add_zero] at hf
        rw [h] at hf
        cases hf
  | succ fuel ih =>
    intro k
    cases h : o k with
    | ok =>
      simp only [deleteTasksRetryLoop, h]
      constructor
      · intro hfalse
        simp at hfalse
      · rintro ⟨j, hj, hf, ht⟩
        rcases j with _ | j
        · rw [Nat.add_zero] at hf
          rw [h] at hf
          cases hf
        · have := ht 0 (by omega)
          rw [Nat.add_zero] at this
          rw [h] at this
          cases this
    | fatalErr =>
      simp only [deleteTasksRetryLoop, h]
      constructor
      · intro _
        exact ⟨0, by omega, by rwa [Nat.add_zero], fun i hi => absurd hi (by omega)⟩
      · intro _
        trivial
    | transientErr =>
      simp only [deleteTasksRetryLoop, h]
      rw [ih (k + 1)]
      constructor
      · rintro ⟨j, hj, hf, ht⟩
        refine ⟨j + 1, by omega, ?_, ?_⟩
        · rw [show k + (j + 1) = k + 1 + j by omega]
          exact hf
        · intro i hi
          rcases i with _ | i
          · rwa [Nat.add_zero]
          · rw [show k + (i + 1) = k + 1 + i by omega]
            exact ht i (by omega)
      · rintro ⟨j, hj, hf, ht⟩
        rcases j with _ | j
        · rw [Nat.add_zero] at hf
          rw [h] at hf
          cases hf
        · refine ⟨j, by omega, ?_, ?_⟩
          · rw [show k + 1 + j = k + (j + 1) by omega]
            exact hf
          · intro i hi
            rw [show k + 1 + i = k + (i + 1) by omega]
            exact ht (i + 1) (by omega)

/-! ## Claim theorems -/

/-- Claim C9: `IdempotencyKey` validation accepts a string exactly when its byte
length is between 1 and 63 inclusive; the publish endpoint answers a request
carrying an invalid key with status 400, mutates no state and attempts no
send. -/
theorem idempotency_key_bounds_and_invalid_key_rejected_with_400 (value : String) :
    ((idempotencyKeyTryFrom value).isSome ↔
      1 ≤ value.utf8ByteSize ∧ value.utf8ByteSize ≤ 63) ∧
    (∀ s ec userId now, idempotencyKeyTryFrom value = none →
      (publishNewsletters s ec userId value now).result.statusCode = 400 ∧
      (publishNewsletters s ec userId value now).finalState = s ∧
      (publishNewsletters s ec userId value now).sentEmails = []) := by
  refine ⟨idempotencyKeyTryFrom_isSome_iff value, ?_⟩
  intro s ec userId now h
  unfold publishNewsletters
  rw [h]
  exact ⟨rfl, rfl, rfl⟩

/-- Witness for C9 at the empty key: rejected by validation, answered with 400,
no state change, no send. -/
theorem idempotency_key_bounds_witness :
    ((idempotencyKeyTryFrom "").isSome ↔
      1 ≤ "".utf8ByteSize ∧ "".utf8ByteSize ≤ 63) ∧
    ((publishNewsletters oneConfirmedSubscriberState allGoodEmailClient 7 "" 0).result.statusCode = 400 ∧
     (publishNewsletters oneConfirmedSubscriberState allGoodEmailClient 7 "" 0).finalState =
       oneConfirmedSubscriberState ∧
     (publishNewsletters oneConfirmedSubscriberState allGoodEmailClient 7 "" 0).sentEmails = []) :=
  ⟨(idempotency_key_bounds_and_invalid_key_rejected_with_400 "").1,
   (idempotency_key_bounds_and_invalid_key_rejected_with_400 "").2
     oneConfirmedSubscriberState allGoodEmailClient 7 0 (by decide)⟩

/-- Claim C1 (code bug): evaluating `publish_newsletters` on a fresh idempotency
key `"k"` for user 7 with one confirmed subscriber and a fully working transport:
the request succeeds with the 303 redirect, the email is sent inline during the
request, and the committed state contains no `NewsletterIssue` row and no
`DeliveryTask` row at all — the handler never creates the issue, never populates
the delivery queue and never sets `required_n_tasks`. -/
theorem publish_success_creates_no_issue_and_no_tasks :
    (publishNewsletters oneConfirmedSubscriberState allGoodEmailClient 7 "k" 0).result =
      .response seeOtherAdminNewsletters ∧
    (publishNewsletters oneConfirmedSubscriberState allGoodEmailClient 7 "k" 0).finalState.issues = [] ∧
    (publishNewsletters oneConfirmedSubscriberState allGoodEmailClient 7 "k" 0).finalState.queue = [] ∧
    (publishNewsletters oneConfirmedSubscriberState allGoodEmailClient 7 "k" 0).sentEmails = [1] := by
  decide

/-- Claim C2 (code bug): evaluating `publish_newsletters` on a fresh key with two
confirmed subscribers where the send to subscriber 1 succeeds and the send to
subscriber 2 fails: the request fails with 500 and the database rolls back to the
initial state, but the transport was already invoked for both subscribers — the
email to subscriber 1 is partial success observable outside the aborted
transaction, and the retry with the same key invokes the transport for
subscriber 1 again. -/
theorem publish_failure_partial_send_survives_rollback :
    (publishNewsletters twoConfirmedSubscribersState failSecondEmailClient 7 "k" 0).result =
      .internalError ∧
    (publishNewsletters twoConfirmedSubscribersState failSecondEmailClient 7 "k" 0).finalState =
      twoConfirmedSubscribersState ∧
    (publishNewsletters twoConfirmedSubscribersState failSecondEmailClient 7 "k" 0).sentEmails =
      [1, 2] ∧
    failSecondEmailClient.sendSucceeds 1 = true ∧
    (publishNewsletters
      (publishNewsletters twoConfirmedSubscribersState failSecondEmailClient 7 "k" 0).finalState
      failSecondEmailClient 7 "k" 0).sentEmails = [1, 2] := by
  decide

/-- Counterexample for C6: after `EmptyQueue` the worker's action is a plain
`notified().await` with no timer attached, and a fully successful publish leaves
the worker's notification handle untouched — both the "additionally polls on a
timer" and the "publish sends a wake signal" clauses fail on the code. -/
theorem worker_wait_untimed_and_publish_sends_no_wake :
    workerLoopBody (some .emptyQueue) = .waitNotified ∧
    (workerLoopBody (some .emptyQueue)).hasTimer = false ∧
    (publishNewsletters oneConfirmedSubscriberState allGoodEmailClient 7 "k" 0).result =
      .response seeOtherAdminNewsletters ∧
    (publishNewsletters oneConfirmedSubscriberState allGoodEmailClient 7 "k" 0).notifiedWorker =
      false := by
  decide

/-- Claim C6 (amended): after reporting `EmptyQueue` the worker blocks on the
notification handle with no timer fallback; on any database or transport error it
sleeps a fixed (non-exponential) 1-second interval — the only timed action in the
loop; and no path of the `publish_newsletters` handler in the sources signals the
notification handle. -/
theorem worker_blocks_untimed_and_fixed_error_backoff :
    workerLoopBody (some .emptyQueue) = .waitNotified ∧
    workerLoopBody none = .sleepSecs RETRY_INTERVAL_SECS ∧
    (∀ res, (workerLoopBody res).hasTimer = true →
      workerLoopBody res = .sleepSecs RETRY_INTERVAL_SECS) ∧
    (∀ s ec userId idempotencyKey now,
      (publishNewsletters s ec userId idempotencyKey now).notifiedWorker = false) := by
  refine ⟨rfl, rfl, ?_, ?_⟩
  · intro res
    rcases res with _ | res
    · intro _
      rfl
    · rcases res with _ | _ <;> intro h <;> simp [workerLoopBody, WorkerLoopAction.hasTimer] at h ⊢
  · intro s ec userId idempotencyKey now
    unfold publishNewsletters
    repeat' split
    all_goals rfl

/-- Counterexample for C8: with one AVAILABLE issue whose row is locked by
another worker, the code's issue selection (`get_available_newsletters_issues`,
a plain `SELECT` with no `FOR UPDATE SKIP LOCKED`) still returns that issue,
whereas the lock-skipping selection the claim describes would skip it: the
worker's issue selection takes no row-level lock and skips nothing. -/
theorem issue_selection_ignores_row_locks :
    (getAvailableNewslettersIssues oneAvailableIssueState).map (·.1) = some 1 ∧
    getAvailableNewslettersIssuesLockSkipSpec oneAvailableIssueState [1] = none := by
  decide

/-- Claim C8 (amended): the task dequeue (`FOR UPDATE SKIP LOCKED`) never claims
a row locked by another worker, so no `DeliveryTask` is claimed by two workers at
the same time: a second worker dequeuing while the first still holds its claimed
batch obtains a disjoint batch (of any issue, in particular the same one).  The
issue selection itself takes no lock (see the counterexample), so distinct
workers may pick the same issue and drain it in parallel via disjoint batches. -/
theorem dequeued_batches_disjoint_under_locks (s : DbState)
    (locked : List DeliveryTask) (id₁ n₁ id₂ n₂ : Nat) :
    (∀ t ∈ dequeueTasksRows s locked id₁ n₁, t ∉ locked) ∧
    List.Disjoint
      (dequeueTasksRows s (locked ++ dequeueTasksRows s locked id₁ n₁) id₂ n₂)
      (dequeueTasksRows s locked id₁ n₁) := by
  constructor
  · intro t ht
    exact (mem_dequeueTasksRows ht).2.2
  · intro t ht₂ ht₁
    have h := (mem_dequeueTasksRows ht₂).2.2
    exact h (List.mem_append_right locked ht₁)

lemma tryExecuteTask_noIssue {s : DbState} {ec : EmailClientModel}
    {o : Nat → DeleteOutcome} (hga : getAvailableNewslettersIssues s = none) :
    tryExecuteTask s ec o = some ⟨s, .emptyQueue, [], []⟩ := by
  unfold tryExecuteTask
  rw [hga]

lemma tryExecuteTask_emptyBatch {s : DbState} {ec : EmailClientModel}
    {o : Nat → DeleteOutcome} {id0 : Nat} {content : NewslettersIssue}
    (hga : getAvailableNewslettersIssues s = some (id0, content))
    (hemp : (dequeueTasks s [] id0 50).isEmpty = true) :
    tryExecuteTask s ec o = some ⟨s, .emptyQueue, [], []⟩ := by
  simp only [tryExecuteTask, hga]
  rw [if_pos hemp]

lemma tryExecuteTask_fatal {s : DbState} {ec : EmailClientModel}
    {o : Nat → DeleteOutcome} {id0 : Nat} {content : NewslettersIssue}
    (hga : getAvailableNewslettersIssues s = some (id0, content))
    (hemp : (dequeueTasks s [] id0 50).isEmpty = false)
    (hloop : (deleteTasksRetryLoop o 0 MAX_RETRIES).1 = none) :
    tryExecuteTask s ec o = none := by
  simp only [tryExecuteTask, hga]
  rw [if_neg (by rw [hemp]; exact Bool.false_ne_true), hloop]

lemma tryExecuteTask_committed {s : DbState} {ec : EmailClientModel}
    {o : Nat → DeleteOutcome} {id0 : Nat} {content : NewslettersIssue} {deleted : Bool}
    (hga : getAvailableNewslettersIssues s = some (id0, content))
    (hemp : (dequeueTasks s [] id0 50).isEmpty = false)
    (hloop : (deleteTasksRetryLoop o 0 MAX_RETRIES).1 = some deleted) :
    tryExecuteTask s ec o =
      some ⟨updateNewslettersIssueStatus
              { s with queue :=
                  if deleted then deleteTasks s.queue id0 (finishedEmailsOf s ec id0) else s.queue }
              id0 (finishedEmailsOf s ec id0).length,
            .taskCompleted, dequeueTasks s [] id0 50, attemptedSendsOf s ec id0⟩ := by
  simp only [tryExecuteTask, hga]
  rw [if_neg (by rw [hemp]; exact Bool.false_ne_true), hloop]

/-- Claim C7 (amended): within a claimed batch the transport send is invoked for
exactly the recipients whose address parses; a task with a malformed address gets
no transport attempt, but it is not dropped: every queue row carrying a malformed
address survives the execution (it stays claimable and will be re-claimed, never
sent and never deleted). -/
theorem malformed_emails_no_transport_but_stay_queued (s : DbState)
    (ec : EmailClientModel) (deleteOutcome : Nat → DeleteOutcome)
    (tr : ExecutionTrace) (h : tryExecuteTask s ec deleteOutcome = some tr) :
    tr.attemptedSends = tr.claimedBatch.filter ec.isValidSubscriberEmail ∧
    (∀ t ∈ s.queue, ec.isValidSubscriberEmail t.subscriberEmail = false →
      t ∈ tr.finalState.queue) := by
  cases hga : getAvailableNewslettersIssues s with
  | none =>
    rw [tryExecuteTask_noIssue hga] at h
    cases h
    exact ⟨rfl, fun t ht _ => ht⟩
  | some p =>
    obtain ⟨id0, content⟩ := p
    cases hemp : (dequeueTasks s [] id0 50).isEmpty with
    | true =>
      rw [tryExecuteTask_emptyBatch hga hemp] at h
      cases h
      exact ⟨rfl, fun t ht _ => ht⟩
    | false =>
      cases hloop : (deleteTasksRetryLoop deleteOutcome 0 MAX_RETRIES).1 with
      | none =>
        rw [tryExecuteTask_fatal hga hemp hloop] at h
        cases h
      | some deleted =>
        rw [tryExecuteTask_committed hga hemp hloop] at h
        cases h
        constructor
        · exact List.filter_congr fun e _ => trySend_fst ec e
        · intro t ht hinvalid
          show t ∈ (updateNewslettersIssueStatus _ _ _).queue
          rw [updateNewslettersIssueStatus_queue]
          show t ∈ (if deleted then deleteTasks s.queue id0 (finishedEmailsOf s ec id0) else s.queue)
          cases deleted with
          | false => simpa using ht
          | true =>
            rw [if_pos rfl]
            unfold deleteTasks
            rw [List.mem_filter]
            refine ⟨ht, ?_⟩
            have hnotF : t.subscriberEmail ∉ finishedEmailsOf s ec id0 := by
              intro hmem
              have hsnd := List.of_mem_filter hmem
              have hvalid := valid_of_trySend_snd hsnd
              rw [hinvalid] at hvalid
              cases hvalid
            simp [hnotF]

/-- Counterexample for C7: a batch whose only task has a malformed address; after
the execution the task still sits in the delivery queue (it was not dropped) even
though no transport attempt was made. -/
theorem malformed_task_not_dropped :
    (tryExecuteTask oneMalformedTaskState noValidEmailClient fun _ => .ok).map
      (fun tr => (tr.finalState.queue, tr.attemptedSends)) = some ([⟨1, 7⟩], []) := by
  decide

/-- Witness for C7 at the concrete malformed-address batch. -/
theorem malformed_emails_no_transport_but_stay_queued_witness :
    (ExecutionTrace.mk oneMalformedTaskState .taskCompleted [7] []).attemptedSends =
      (ExecutionTrace.mk oneMalformedTaskState .taskCompleted [7] []).claimedBatch.filter
        noValidEmailClient.isValidSubscriberEmail ∧
    (∀ t ∈ oneMalformedTaskState.queue,
      noValidEmailClient.isValidSubscriberEmail t.subscriberEmail = false →
      t ∈ (ExecutionTrace.mk oneMalformedTaskState .taskCompleted [7] []).finalState.queue) :=
  malformed_emails_no_transport_but_stay_queued oneMalformedTaskState noValidEmailClient
    (fun _ => .ok) (ExecutionTrace.mk oneMalformedTaskState .taskCompleted [7] []) (by decide)

/-- Claim C10: the `delete_tasks` retry loop of `try_execute_task` retries at
most `MAX_RETRIES = 5` times, sleeping the fixed `RETRY_INTERVAL = 1` second
between attempts; it aborts with an error exactly when an attempt fails with a
column-decode / column-not-found / type-not-found error (after transient failures
only); and when the loop gives up with every attempt failed transiently, the
worker still commits and increments `finished_n_tasks` by the number of
successful sends while the queue keeps every row. -/
theorem delete_retries_bounded_fatal_only_and_unconditional_increment :
    (∀ o : Nat → DeleteOutcome,
      (deleteTasksRetryLoop o 0 MAX_RETRIES).2.length ≤ MAX_RETRIES ∧
      ∀ d ∈ (deleteTasksRetryLoop o 0 MAX_RETRIES).2, d = RETRY_INTERVAL_SECS) ∧
    (∀ o : Nat → DeleteOutcome,
      ((deleteTasksRetryLoop o 0 MAX_RETRIES).1 = none ↔
        ∃ j, j ≤ MAX_RETRIES ∧ o j = .fatalErr ∧ ∀ i < j, o i = .transientErr)) ∧
    (∀ (s : DbState) (ec : EmailClientModel) (o : Nat → DeleteOutcome)
        (id0 : Nat) (content : NewslettersIssue),
      getAvailableNewslettersIssues s = some (id0, content) →
      (dequeueTasks s [] id0 50).isEmpty = false →
      (deleteTasksRetryLoop o 0 MAX_RETRIES).1 = some false →
      (tryExecuteTask s ec o).map (·.result) = some .taskCompleted ∧
      (tryExecuteTask s ec o).map (·.finalState.queue) = some s.queue ∧
      (tryExecuteTask s ec o).map (·.finalState.issues) =
        some (updateNewslettersIssueStatus s id0
          (finishedEmailsOf s ec id0).length).issues) := by
  refine ⟨fun o => deleteTasksRetryLoop_sleeps o MAX_RETRIES 0, ?_, ?_⟩
  · intro o
    have h := deleteTasksRetryLoop_none_iff o MAX_RETRIES 0
    simpa using h
  · intro s ec o id0 content hga hemp hloop
    rw [tryExecuteTask_committed hga hemp hloop]
    refine ⟨rfl, ?_, ?_⟩
    · simp [updateNewslettersIssueStatus_queue]
    · rfl

/-- Witness for C10: a concrete batch of one task whose every delete attempt
fails transiently; the loop gives up, the worker commits, the queue keeps its
row, and the issue row is still incremented by the successful send count. -/
theorem delete_retries_witness :
    (tryExecuteTask oneAvailableIssueState allGoodEmailClient fun _ => .transientErr).map
      (·.result) = some .taskCompleted ∧
    (tryExecuteTask oneAvailableIssueState allGoodEmailClient fun _ => .transientErr).map
      (·.finalState.queue) = some oneAvailableIssueState.queue ∧
    (tryExecuteTask oneAvailableIssueState allGoodEmailClient fun _ => .transientErr).map
      (·.finalState.issues) =
      some (updateNewslettersIssueStatus oneAvailableIssueState 1
        (finishedEmailsOf oneAvailableIssueState allGoodEmailClient 1).length).issues :=
  (delete_retries_bounded_fatal_only_and_unconditional_increment).2.2
    oneAvailableIssueState allGoodEmailClient (fun _ => .transientErr) 1 ⟨"t", "x", "h"⟩
    (by decide) (by decide) (by decide)

/-- Claim C4 (amended): an issue's status flips AVAILABLE → COMPLETED only inside
`update_newsletters_issue_status`, in the same transaction as (and immediately
after) the increment of `finished_n_tasks`, and only when the incremented counter
equals `required_n_tasks`.  The function never reads the delivery queue — "no
DeliveryTask rows remain" is not part of the condition — and the task deletes
happen in the earlier, separate worker transaction. -/
theorem completed_flip_checks_counters_in_increment_transaction (s : DbState)
    (id0 done : Nat) (hids : (s.issues.map (·.id)).Nodup)
    (r r' : NewslettersIssueRow) (hr : r ∈ s.issues)
    (hr' : r' ∈ (updateNewslettersIssueStatus s id0 done).issues)
    (hid : r'.id = r.id) (h₁ : r.status = .available) (h₂ : r'.status = .completed) :
    r.id = id0 ∧ r'.finishedNTasks = r.finishedNTasks + done ∧
    r'.finishedNTasks = r'.requiredNTasks ∧
    (updateNewslettersIssueStatus s id0 done).queue = s.queue := by
  rw [updateNewslettersIssueStatus_issues] at hr'
  obtain ⟨r₀, hr₀, hr'eq⟩ := List.mem_map.mp hr'
  have hid₀ : r₀.id = r.id := by
    rw [← hr'eq] at hid
    simpa [Function.comp, completeWhenFinishedMatches_id, incrementFinishedNTasks_id]
      using hid
  have hr₀r : r₀ = r := List.inj_on_of_nodup_map hids hr₀ hr hid₀
  rw [hr₀r] at hr'eq
  by_cases hidr : (r.id == id0) = true
  · have hr1 : incrementFinishedNTasks id0 done r =
        { r with finishedNTasks := r.finishedNTasks + done } := by
      unfold incrementFinishedNTasks
      rw [if_pos]
      simp [hidr, h₁]
    by_cases hfin : r.finishedNTasks + done = r.requiredNTasks
    · have hr2 : r' =
          { r with finishedNTasks := r.finishedNTasks + done, status := .completed } := by
        rw [← hr'eq]
        simp only [Function.comp_apply, hr1]
        unfold completeWhenFinishedMatches
        rw [if_pos]
        simp [hidr, h₁, hfin]
      refine ⟨by simpa using hidr, ?_, ?_, rfl⟩
      · rw [hr2]
      · rw [hr2]
        simpa using hfin
    · exfalso
      have hr2 : r' = { r with finishedNTasks := r.finishedNTasks + done } := by
        rw [← hr'eq]
        simp only [Function.comp_apply, hr1]
        unfold completeWhenFinishedMatches
        rw [if_neg]
        simp [hfin]
      rw [hr2] at h₂
      rw [h₁] at h₂
      cases h₂
  · exfalso
    have hr2 : r' = r := by
      rw [← hr'eq]
      simp only [Function.comp_apply]
      unfold incrementFinishedNTasks
      rw [if_neg (by simp [hidr])]
      unfold completeWhenFinishedMatches
      rw [if_neg (by simp [hidr])]
    rw [hr2] at h₂
    rw [h₁] at h₂
    cases h₂

/-- Counterexample for C4: required 1, finished 0, one queued task; the send
succeeds but every delete attempt fails transiently, so the worker commits with
the row still in the queue, and the separate status transaction still flips the
issue to COMPLETED while its DeliveryTask row remains. -/
theorem completed_flip_with_tasks_remaining :
    (tryExecuteTask oneAvailableIssueState allGoodEmailClient fun _ => .transientErr).map
      (fun tr => (tr.finalState.issues.map (·.status), tr.finalState.queue)) =
      some ([.completed], [⟨1, 5⟩]) := by
  decide

/-- Witness for C4 at a concrete row: required 2, finished 1, incremented by 1
and flipped to COMPLETED exactly at counter equality. -/
theorem completed_flip_checks_counters_witness :
    (⟨1, "t", "x", "h", .available, 2, 1⟩ : NewslettersIssueRow).id = 1 ∧
    (⟨1, "t", "x", "h", .completed, 2, 2⟩ : NewslettersIssueRow).finishedNTasks =
      (⟨1, "t", "x", "h", .available, 2, 1⟩ : NewslettersIssueRow).finishedNTasks + 1 ∧
    (⟨1, "t", "x", "h", .completed, 2, 2⟩ : NewslettersIssueRow).finishedNTasks =
      (⟨1, "t", "x", "h", .completed, 2, 2⟩ : NewslettersIssueRow).requiredNTasks ∧
    (updateNewslettersIssueStatus ⟨[], [], [⟨1, "t", "x", "h", .available, 2, 1⟩], []⟩ 1 1).queue =
      (⟨[], [], [⟨1, "t", "x", "h", .available, 2, 1⟩], []⟩ : DbState).queue :=
  completed_flip_checks_counters_in_increment_transaction
    ⟨[], [], [⟨1, "t", "x", "h", .available, 2, 1⟩], []⟩ 1 1 (by decide)
    ⟨1, "t", "x", "h", .available, 2, 1⟩ ⟨1, "t", "x", "h", .completed, 2, 2⟩
    (by decide) (by decide) (by decide) (by decide) (by decide)

lemma nodup_issue_emails {q : List DeliveryTask} (hq : q.Nodup) (id0 : Nat) :
    ((q.filter fun t => t.id == id0).map (·.subscriberEmail)).Nodup := by
  apply List.Nodup.map_on
  · intro x hx y hy hxy
    have hxid := List.of_mem_filter hx
    have hyid := List.of_mem_filter hy
    cases x with
    | mk xid xe =>
      cases y with
      | mk yid ye =>
        simp at hxid hyid hxy ⊢
        exact ⟨hxid.trans hyid.symm, hxy⟩
  · exact hq.filter _

lemma length_filter_contains_eq {q0 : List DeliveryTask} {id0 : Nat} {F : List Nat}
    (hq0 : q0.Nodup) (hall : ∀ t ∈ q0, t.id = id0)
    (hFnd : F.Nodup) (hFsub : ∀ e ∈ F, (⟨id0, e⟩ : DeliveryTask) ∈ q0) :
    (q0.filter fun t => F.contains t.subscriberEmail).length = F.length := by
  have h1 : (q0.filter fun t => F.contains t.subscriberEmail).Nodup := hq0.filter _
  have h2 : (F.map fun e => (⟨id0, e⟩ : DeliveryTask)).Nodup := by
    apply List.Nodup.map_on
    · intro x _ y _ h
      simpa using h
    · exact hFnd
  have hperm : (q0.filter fun t => F.contains t.subscriberEmail).Perm
      (F.map fun e => (⟨id0, e⟩ : DeliveryTask)) := by
    apply List.perm_of_nodup_nodup_toFinset_eq h1 h2
    ext t
    simp only [List.mem_toFinset, List.mem_filter, List.mem_map]
    constructor
    · rintro ⟨htq, hcont⟩
      refine ⟨t.subscriberEmail, by simpa using hcont, ?_⟩
      have hid := hall t htq
      cases t
      simp at hid ⊢
      exact hid.symm
    · rintro ⟨e, heF, rfl⟩
      exact ⟨hFsub e heF, by simpa using heF⟩
  have hlen := hperm.length_eq
  simpa using hlen

lemma issueTasksCount_after_delete {s : DbState} {id0 : Nat} {F : List Nat}
    (hq : s.queue.Nodup) (hFnd : F.Nodup)
    (hFsub : ∀ e ∈ F, (⟨id0, e⟩ : DeliveryTask) ∈ s.queue) :
    issueTasksCount { s with queue := deleteTasks s.queue id0 F } id0 =
      issueTasksCount s id0 - F.length ∧
    F.length ≤ issueTasksCount s id0 := by
  unfold issueTasksCount deleteTasks
  have hstep : (List.filter (fun t => t.id == id0)
      (List.filter (fun t => !(t.id == id0 && F.contains t.subscriberEmail)) s.queue)) =
      List.filter (fun t => !(F.contains t.subscriberEmail))
        (List.filter (fun t => t.id == id0) s.queue) := by
    rw [List.filter_filter, List.filter_filter]
    apply List.filter_congr
    intro t _
    cases h1 : (t.id == id0) <;> cases h2 : F.contains t.subscriberEmail <;> simp [h1, h2]
  have hq0nd : (List.filter (fun t => t.id == id0) s.queue).Nodup := hq.filter _
  have hall : ∀ t ∈ List.filter (fun t => t.id == id0) s.queue, t.id = id0 := by
    intro t ht
    simpa using List.of_mem_filter ht
  have hFsub' : ∀ e ∈ F, (⟨id0, e⟩ : DeliveryTask) ∈
      List.filter (fun t => t.id == id0) s.queue := by
    intro e he
    rw [List.mem_filter]
    exact ⟨hFsub e he, by simp⟩
  have hcount := length_filter_contains_eq hq0nd hall hFnd hFsub'
  have hsplit : (List.filter (fun t => t.id == id0) s.queue).length =
      (List.filter (fun t => F.contains t.subscriberEmail)
        (List.filter (fun t => t.id == id0) s.queue)).length +
      (List.filter (fun t => !(F.contains t.subscriberEmail))
        (List.filter (fun t => t.id == id0) s.queue)).length :=
    List.length_eq_length_filter_add _
  constructor
  · have hgoal : (List.filter (fun t => t.id == id0)
        (List.filter (fun t => !(t.id == id0 && F.contains t.subscriberEmail)) s.queue)).length =
        (List.filter (fun t => t.id == id0) s.queue).length - F.length := by
      rw [hstep]
      omega
    exact hgoal
  · omega

lemma issueTasksCount_delete_other {s : DbState} {id0 rid : Nat} (F : List Nat)
    (h : rid ≠ id0) :
    issueTasksCount { s with queue := deleteTasks s.queue id0 F } rid =
      issueTasksCount s rid := by
  unfold issueTasksCount deleteTasks
  have hgoal : (List.filter (fun t => t.id == rid)
      (List.filter (fun t => !(t.id == id0 && F.contains t.subscriberEmail)) s.queue)).length =
      (List.filter (fun t => t.id == rid) s.queue).length := by
    rw [List.filter_filter]
    congr 1
    apply List.filter_congr
    intro t _
    by_cases h1 : t.id = rid
    · have h2 : (t.id == id0) = false := by
        simp [h1]
        omega
      simp [h1, h2]
      exact Or.inl h
    · simp [h1]
  exact hgoal

lemma update_row_cases (id0 d : Nat) (r : NewslettersIssueRow) :
    (completeWhenFinishedMatches id0 (incrementFinishedNTasks id0 d r) = r ∧
      ¬(r.id = id0 ∧ r.status = .available)) ∨
    (r.id = id0 ∧ r.status = .available ∧ r.finishedNTasks + d = r.requiredNTasks ∧
      completeWhenFinishedMatches id0 (incrementFinishedNTasks id0 d r) =
        { r with finishedNTasks := r.finishedNTasks + d, status := .completed }) ∨
    (r.id = id0 ∧ r.status = .available ∧ r.finishedNTasks + d ≠ r.requiredNTasks ∧
      completeWhenFinishedMatches id0 (incrementFinishedNTasks id0 d r) =
        { r with finishedNTasks := r.finishedNTasks + d }) := by
  by_cases hsel : r.id = id0 ∧ r.status = .available
  · obtain ⟨hid, hst⟩ := hsel
    have hr1 : incrementFinishedNTasks id0 d r =
        { r with finishedNTasks := r.finishedNTasks + d } := by
      unfold incrementFinishedNTasks
      rw [if_pos]
      simp [hid, hst]
    by_cases hfin : r.finishedNTasks + d = r.requiredNTasks
    · refine Or.inr (Or.inl ⟨hid, hst, hfin, ?_⟩)
      rw [hr1]
      unfold completeWhenFinishedMatches
      rw [if_pos]
      simp [hid, hst, hfin]
    · refine Or.inr (Or.inr ⟨hid, hst, hfin, ?_⟩)
      rw [hr1]
      unfold completeWhenFinishedMatches
      rw [if_neg]
      simp [hfin]
  · refine Or.inl ⟨?_, hsel⟩
    have hr1 : incrementFinishedNTasks id0 d r = r := by
      unfold incrementFinishedNTasks
      rw [if_neg]
      intro hcond
      simp at hcond
      exact hsel ⟨hcond.1, hcond.2⟩
    rw [hr1]
    unfold completeWhenFinishedMatches
    rw [if_neg]
    intro hcond
    simp at hcond
    exact hsel hcond.1

lemma finishedEmailsOf_sublist_issue_emails (s : DbState) (ec : EmailClientModel)
    (id0 : Nat) :
    (finishedEmailsOf s ec id0).Sublist
      ((s.queue.filter fun t => t.id == id0).map (·.subscriberEmail)) := by
  unfold finishedEmailsOf dequeueTasks
  rw [dequeueTasksRows_nil_locked]
  apply List.Sublist.trans (List.filter_sublist _)
  exact (List.take_sublist _ _).map _

lemma finishedEmailsOf_nodup (s : DbState) (ec : EmailClientModel) (id0 : Nat)
    (hq : s.queue.Nodup) : (finishedEmailsOf s ec id0).Nodup :=
  (finishedEmailsOf_sublist_issue_emails s ec id0).nodup (nodup_issue_emails hq id0)

lemma finishedEmailsOf_mem_queue (s : DbState) (ec : EmailClientModel) (id0 : Nat) :
    ∀ e ∈ finishedEmailsOf s ec id0, (⟨id0, e⟩ : DeliveryTask) ∈ s.queue := by
  intro e he
  have hmem : e ∈ (s.queue.filter fun t => t.id == id0).map (·.subscriberEmail) :=
    (finishedEmailsOf_sublist_issue_emails s ec id0).mem he
  obtain ⟨t, htf, rfl⟩ := List.mem_map.mp hmem
  have htq := List.mem_of_mem_filter htf
  have htid : t.id = id0 := by simpa using List.of_mem_filter htf
  cases t with
  | mk tid te =>
    simp at htid ⊢
    rwa [htid] at htq

lemma issueTasksCount_update (s : DbState) (id0 d rid : Nat) :
    issueTasksCount (updateNewslettersIssueStatus s id0 d) rid =
      issueTasksCount s rid := rfl

lemma wfState_after_delete_and_update (s : DbState) (ec : EmailClientModel)
    (id0 : Nat) (hwf : wfState s) :
    wfState (updateNewslettersIssueStatus
      { s with queue := deleteTasks s.queue id0 (finishedEmailsOf s ec id0) }
      id0 (finishedEmailsOf s ec id0).length) := by
  obtain ⟨hids, hq, hfin, havail⟩ := hwf
  have hFnd : (finishedEmailsOf s ec id0).Nodup := finishedEmailsOf_nodup s ec id0 hq
  have hFsub : ∀ e ∈ finishedEmailsOf s ec id0, (⟨id0, e⟩ : DeliveryTask) ∈ s.queue :=
    finishedEmailsOf_mem_queue s ec id0
  obtain ⟨hcnt, hle⟩ := issueTasksCount_after_delete hq hFnd hFsub
  refine ⟨?_, ?_, ?_, ?_⟩
  · rw [updateNewslettersIssueStatus_ids]
    exact hids
  · rw [updateNewslettersIssueStatus_queue]
    exact (List.filter_sublist _).nodup hq
  · intro r' hr'
    rw [updateNewslettersIssueStatus_issues] at hr'
    obtain ⟨r, hrmem, rfl⟩ := List.mem_map.mp hr'
    have hrmem' : r ∈ s.issues := hrmem
    rcases update_row_cases id0 (finishedEmailsOf s ec id0).length r with
      ⟨heq, hnot⟩ | ⟨hid, hst, hfeq, heq⟩ | ⟨hid, hst, hfneq, heq⟩
    · rw [Function.comp_apply, heq]
      exact hfin r hrmem'
    · rw [Function.comp_apply, heq]
      simp
      omega
    · rw [Function.comp_apply, heq]
      simp
      have horig := havail r hrmem' hst
      rw [hid] at horig
      omega
  · intro r' hr' hst'
    rw [updateNewslettersIssueStatus_issues] at hr'
    obtain ⟨r, hrmem, rfl⟩ := List.mem_map.mp hr'
    have hrmem' : r ∈ s.issues := hrmem
    rw [issueTasksCount_update]
    rcases update_row_cases id0 (finishedEmailsOf s ec id0).length r with
      ⟨heq, hnot⟩ | ⟨hid, hst, hfeq, heq⟩ | ⟨hid, hst, hfneq, heq⟩
    · rw [Function.comp_apply, heq] at hst' ⊢
      have hrid : r.id ≠ id0 := fun hidc => hnot ⟨hidc, hst'⟩
      have hcnt' := issueTasksCount_delete_other (s := s)
        (finishedEmailsOf s ec id0) hrid
      have horig := havail r hrmem' hst'
      omega
    · exfalso
      rw [Function.comp_apply, heq] at hst'
      simp at hst'
    · rw [Function.comp_apply, heq] at hst' ⊢
      simp only []
      have horig := havail r hrmem' hst
      rw [hid] at horig
      show r.finishedNTasks + (finishedEmailsOf s ec id0).length +
        issueTasksCount { s with queue := deleteTasks s.queue id0 (finishedEmailsOf s ec id0) } r.id =
        r.requiredNTasks
      rw [hid]
      omega

lemma deleteTasksRetryLoop_ok {o : Nat → DeleteOutcome} {k fuel : Nat}
    (h : o k = .ok) : deleteTasksRetryLoop o k fuel = (some true, []) := by
  cases fuel <;> simp [deleteTasksRetryLoop, h]

lemma wfState_workerStep (s : DbState) (o : WorkerStepOracle)
    (hwf : wfState s) (hdel : ∀ n, o.deleteOutcome n = .ok) :
    wfState (workerStep s o) := by
  unfold workerStep
  cases hga : getAvailableNewslettersIssues s with
  | none =>
    rw [tryExecuteTask_noIssue hga]
    exact hwf
  | some p =>
    obtain ⟨id0, content⟩ := p
    cases hemp : (dequeueTasks s [] id0 50).isEmpty with
    | true =>
      rw [tryExecuteTask_emptyBatch hga hemp]
      exact hwf
    | false =>
      have hloop : (deleteTasksRetryLoop o.deleteOutcome 0 MAX_RETRIES).1 = some true := by
        rw [deleteTasksRetryLoop_ok (hdel 0)]
      rw [tryExecuteTask_committed hga hemp hloop]
      show wfState (updateNewslettersIssueStatus
        { s with queue := if true then deleteTasks s.queue id0 (finishedEmailsOf s o.emailClient id0) else s.queue }
        id0 (finishedEmailsOf s o.emailClient id0).length)
      rw [if_pos rfl]
      exact wfState_after_delete_and_update s o.emailClient id0 hwf

lemma statusStepOk_refl {s : DbState} (hids : (s.issues.map (·.id)).Nodup) :
    statusStepOk s s := by
  intro r₁ h₁ r₂ h₂ hid
  have h12 : r₁ = r₂ := List.inj_on_of_nodup_map hids h₁ h₂ hid
  subst h12
  exact ⟨fun h => h, fun h => absurd rfl h⟩

lemma statusStepOk_workerStep (s : DbState) (o : WorkerStepOracle)
    (hids : (s.issues.map (·.id)).Nodup) :
    statusStepOk s (workerStep s o) := by
  unfold workerStep
  cases hga : getAvailableNewslettersIssues s with
  | none =>
    rw [tryExecuteTask_noIssue hga]
    exact statusStepOk_refl hids
  | some p =>
    obtain ⟨id0, content⟩ := p
    cases hemp : (dequeueTasks s [] id0 50).isEmpty with
    | true =>
      rw [tryExecuteTask_emptyBatch hga hemp]
      exact statusStepOk_refl hids
    | false =>
      cases hloop : (deleteTasksRetryLoop o.deleteOutcome 0 MAX_RETRIES).1 with
      | none =>
        rw [tryExecuteTask_fatal hga hemp hloop]
        exact statusStepOk_refl hids
      | some deleted =>
        rw [tryExecuteTask_committed hga hemp hloop]
        show statusStepOk s (updateNewslettersIssueStatus
          { s with queue := if deleted then deleteTasks s.queue id0 (finishedEmailsOf s o.emailClient id0) else s.queue }
          id0 (finishedEmailsOf s o.emailClient id0).length)
        intro r₁ h₁ r₂ h₂ hid
        rw [updateNewslettersIssueStatus_issues] at h₂
        obtain ⟨r₀, hr₀, hr₂eq⟩ := List.mem_map.mp h₂
        have hid₀ : r₁.id = r₀.id := by
          rw [← hr₂eq] at hid
          simpa [Function.comp, completeWhenFinishedMatches_id,
            incrementFinishedNTasks_id] using hid
        have h10 : r₁ = r₀ := List.inj_on_of_nodup_map hids h₁ hr₀ hid₀
        subst h10
        rcases update_row_cases id0 (finishedEmailsOf s o.emailClient id0).length r₁ with
          ⟨heq, _⟩ | ⟨_, hst, hfeq, heq⟩ | ⟨_, hst, _, heq⟩
        · rw [Function.comp_apply, heq] at hr₂eq
          subst hr₂eq
          exact ⟨fun h => h, fun h => absurd rfl h⟩
        · rw [Function.comp_apply, heq] at hr₂eq
          subst hr₂eq
          constructor
          · intro _
            rfl
          · intro _
            refine ⟨hst, rfl, ?_⟩
            simpa using hfeq
        · rw [Function.comp_apply, heq] at hr₂eq
          subst hr₂eq
          constructor
          · intro h₁c
            exact h₁c
          · intro hne
            exact absurd rfl hne

lemma workerTrace_head (s : DbState) (os : List WorkerStepOracle) :
    (workerTrace s os).head? = some s := by
  cases os <;> rfl

/-- Claim C3 (amended): starting from a well-formed database and provided every
`delete_tasks` call succeeds (so no successfully sent task is ever counted
twice), every sequence of worker executions keeps `finished_n_tasks ≤
required_n_tasks` for every issue, and along the whole trace an issue's status
changes only AVAILABLE → COMPLETED, only at the single step whose increment makes
the two counters equal, and never changes again (COMPLETED is terminal). -/
theorem counters_bounded_and_completed_once (s : DbState)
    (os : List WorkerStepOracle) (hwf : wfState s)
    (hdel : ∀ o ∈ os, ∀ n, o.deleteOutcome n = DeleteOutcome.ok) :
    (∀ r ∈ (workerRun s os).issues, r.finishedNTasks ≤ r.requiredNTasks) ∧
    (workerTrace s os).Chain' statusStepOk := by
  induction os generalizing s with
  | nil =>
    refine ⟨fun r hr => hwf.2.2.1 r hr, ?_⟩
    simp [workerTrace]
  | cons o os ih =>
    have hwf' : wfState (workerStep s o) :=
      wfState_workerStep s o hwf (hdel o (List.mem_cons_self o os))
    obtain ⟨h1, h2⟩ := ih (workerStep s o)
      hwf' (fun o' ho' => hdel o' (List.mem_cons_of_mem o ho'))
    refine ⟨h1, ?_⟩
    show List.Chain' statusStepOk (s :: workerTrace (workerStep s o) os)
    rw [List.chain'_cons']
    refine ⟨?_, h2⟩
    intro y hy
    rw [workerTrace_head] at hy
    have hy' : y = workerStep s o := by
      cases hy
      rfl
    rw [hy']
    exact statusStepOk_workerStep s o hwf.1

/-- Counterexample for C3: an issue with `required_n_tasks = 51` and 51 queued
tasks (one more than the batch size).  Execution 1 sends the first 50 tasks but
every delete attempt fails transiently, so the worker commits with the queue
intact and still adds 50 to `finished_n_tasks`; execution 2 re-claims the same 50
rows, sends them again, deletes them and adds 50 again: `finished_n_tasks = 100 >
51 = required_n_tasks`, violating the claimed invariant. -/
theorem finished_exceeds_required_after_failed_deletes :
    wfState fiftyOneTasksState ∧
    (workerRun fiftyOneTasksState [allTransientOracle, allOkOracle]).issues.any
      (fun r => r.requiredNTasks < r.finishedNTasks) = true ∧
    ((workerRun fiftyOneTasksState [allTransientOracle, allOkOracle]).issues.map
      fun r => (r.finishedNTasks, r.requiredNTasks)) = [(100, 51)] := by
  constructor
  · decide
  · constructor <;> decide

/-- Witness for C3: a well-formed one-task state drained by one execution whose
deletes succeed. -/
theorem counters_bounded_and_completed_once_witness :
    (∀ r ∈ (workerRun oneAvailableIssueState [allOkOracle]).issues,
      r.finishedNTasks ≤ r.requiredNTasks) ∧
    (workerTrace oneAvailableIssueState [allOkOracle]).Chain' statusStepOk :=
  counters_bounded_and_completed_once oneAvailableIssueState [allOkOracle]
    (by decide)
    (by
      intro o ho n
      rw [List.mem_singleton] at ho
      rw [ho]
      rfl)
